import Mathlib

/-!
Shallow embedding of the plan-lifecycle engine of the `ai_agent_kernel`
repository (files `core/executor.py`, `core/planner.py`, `core/critic.py`,
`core/sub_agents.py`, `core/tools.py`), together with proofs settling the
frozen claims about it.

Modelling conventions:
* Python dicts are association lists with insertion order preserved and
  assignment overwriting in place (`dset`), matching CPython semantics.
* Python string truthiness (`if not step_id`) sends both `None` and `""`
  to false; optional string fields are `Option String` with `truthyStr`.
* Python floats in the quality-score arithmetic are modelled as `ℚ`; every
  constant involved (8.0, 2.0, 1.0, 0.5, 10.0) is exactly representable.
* Python `set` iteration order is unspecified; where the source iterates a
  set (`_topological_sort`), the model uses first-insertion order.  Every
  theorem below that depends on `_topological_sort` only uses facts that
  are independent of that order (lengths, and the fallback branch).
-/

namespace AiKernel

/-- Python dict lookup `d.get(k)`: first (and only) binding of a key. -/
def dget {V : Type} (d : List (String × V)) (k : String) : Option V :=
  match d with
  | [] => none
  | (k', v) :: rest => if k' = k then some v else dget rest k

/-- Python dict assignment `d[k] = v`: overwrite in place, else append. -/
def dset {V : Type} (k : String) (v : V) : List (String × V) → List (String × V)
  | [] => [(k, v)]
  | (k', v') :: rest => if k' = k then (k, v) :: rest else (k', v') :: dset k v rest

/-- `d[k].append(x)` preceded by `if k not in d: d[k] = []` (executor
`_build_dependency_graph`): append `x` to the list bound at `k`, binding
`k` at the end of the dict when absent. -/
def dappend (k : String) (x : String) : List (String × List String) → List (String × List String)
  | [] => [(k, [x])]
  | (k', xs) :: rest => if k' = k then (k, xs ++ [x]) :: rest else (k', xs) :: dappend k x rest

/-- Keep the first occurrence of each element (models the order in which a
Python `set` accumulated by `add`/`update` is enumerated here); `seen`
carries the elements already emitted. -/
def dedupFirstAux (seen : List String) : List String → List String
  | [] => []
  | x :: rest => if x ∈ seen then dedupFirstAux seen rest else x :: dedupFirstAux (x :: seen) rest

/-- `dedupFirstAux` from an empty `seen` set. -/
def dedupFirst (l : List String) : List String :=
  dedupFirstAux [] l

/-- JSON-like values: step parameters and step outputs. -/
inductive Val : Type where
  | vnull : Val
  | vbool : Bool → Val
  | vint : Int → Val
  | vstr : String → Val
  | vlist : List Val → Val
  | vobj : List (String × Val) → Val

/-- One plan step, as the executor reads it from the plan dict.  Fields the
source reads with `step.get(...)` are `Option`s (`none` = key absent or
JSON null). -/
structure Step where
  id : Option String
  type : Option String
  tool : Option String
  description : String
  parameters : List (String × Val)
  dependencies : List String

/-- The inner `plan` object: `{description, steps}`. -/
structure PlanBody where
  description : Option String
  steps : List Step

/-- A full planner output document as consumed by the executor and critic:
`{plan: {...}, memory_update: {action, ...}}`. -/
structure PlanDoc where
  plan : PlanBody
  memory_update_action : Option String

/-- Python truthiness of an optional string: `None` and `""` are falsy. -/
def truthyStr : Option String → Bool
  | none => false
  | some s => s ≠ ""

/-- Python `str(x)` for an optional string (`None` prints as "None"),
used in interpolated issue descriptions. -/
def pyShow : Option String → String
  | none => "None"
  | some s => s

/-- One entry of `validation_result["issues"]`. -/
structure Issue where
  type : String
  description : String
  severity : String

/-- One entry of `validation_result["warnings"]` (keyed `priority`, not
`severity`, in the source). -/
structure Warning where
  type : String
  description : String
  priority : String

/-- Result of `Executor._validate_execution_plan`. -/
structure ValidationResult where
  is_valid : Bool
  issues : List Issue
  warnings : List Warning

/-- `ToolRegistry.get_tool_config(name)` is `self.tools.get(name)`; for the
claims only presence matters, so the registry is the list of registered
tool names.  A `None`/missing tool name is never a dict key. -/
def get_tool_config (registry : List String) : Option String → Bool
  | none => false
  | some n => registry.contains n

/-- The graph built inside `Executor._has_circular_dependency`:
`graph[step.get("id")] = step.get("dependencies", [])`, a dict keyed by the
(possibly `None`) step id, later assignments overwriting earlier ones. -/
def buildCycleGraph (steps : List Step) : List (Option String × List String) :=
  steps.foldl (fun g s => setKey s.id s.dependencies g) []
where
  setKey (k : Option String) (v : List String) : List (Option String × List String) → List (Option String × List String)
    | [] => [(k, v)]
    | (k', v') :: rest => if k' = k then (k, v) :: rest else (k', v') :: setKey k v rest

/-- Lookup in the cycle graph (`graph.get(node, [])` returns `[]` for an
unknown node). -/
def cycleNeighbors (g : List (Option String × List String)) (k : Option String) : List String :=
  match g with
  | [] => []
  | (k', v) :: rest => if k' = k then v else cycleNeighbors rest k

/-- The recursive `has_cycle(node)` of `_has_circular_dependency`: returns
whether a cycle is reachable, threading the `visited` set.  `stack` is the
recursion stack; `fuel` bounds the nesting depth of `has_cycle` calls (the
Python recursion is bounded by the number of distinct nodes, so any fuel
of at least `#nodes + 1` is exact).  The `for neighbor in graph.get(node,
[])` loop with its early `return True` is the fold: once a cycle is found
the accumulator is frozen, matching the early return. -/
def hasCycleNode (g : List (Option String × List String)) :
    Nat → Option String → List (Option String) → List (Option String) → Bool × List (Option String)
  | 0, _, visited, _ => (false, visited)
  | fuel + 1, node, visited, stack =>
    if node ∈ stack then (true, visited)
    else if node ∈ visited then (false, visited)
    else
      (cycleNeighbors g node).foldl
        (fun acc d => if acc.1 then acc else hasCycleNode g fuel (some d) acc.2 (node :: stack))
        (false, node :: visited)

/-- The outer `for step_id in graph: if step_id not in visited: ...` loop. -/
def hasCycleOuter (g : List (Option String × List String)) (fuel : Nat) :
    List (Option String) → List (Option String) → Bool
  | [], _ => false
  | k :: rest, visited =>
    if k ∈ visited then hasCycleOuter g fuel rest visited
    else
      match hasCycleNode g fuel k visited [] with
      | (true, _) => true
      | (false, visited') => hasCycleOuter g fuel rest visited'

/-- `Executor._has_circular_dependency(steps)`. -/
def has_circular_dependency (steps : List Step) : Bool :=
  let g := buildCycleGraph steps
  let fuel := g.length + (g.map (fun kv => kv.2.length)).sum + 1
  hasCycleOuter g fuel (g.map (fun kv => kv.1)) []

/-- The issues appended for one step of the `for i, step in enumerate(steps)`
validation loop (`_validate_execution_plan`, lines 180–219).  Note the
source looks the tool up even when the tool name is missing, so a
`TOOL_CALL` step without a tool gets both `missing_tool_name` and
`tool_not_found`. -/
def stepIssues (registry : List String) (i : Nat) (s : Step) : List Issue :=
  (if truthyStr s.id then [] else
    [⟨"missing_step_id", s!"Step {i} is missing an ID", "high"⟩])
  ++ (if truthyStr s.type then [] else
    [⟨"missing_step_type", s!"Step {pyShow s.id} is missing a type", "high"⟩])
  ++ (if s.type = some "TOOL_CALL" then
      (if truthyStr s.tool then [] else
        [⟨"missing_tool_name", s!"Step {pyShow s.id} is missing tool name", "high"⟩])
      ++ (if get_tool_config registry s.tool then [] else
        [⟨"tool_not_found", s!"Tool \x27{pyShow s.tool}\x27 not found in registry", "high"⟩])
    else [])

/-- The whole step-validation loop: collected issues, in step order. -/
def stepLoopIssues (registry : List String) : Nat → List Step → List Issue
  | _, [] => []
  | i, s :: rest => stepIssues registry i s ++ stepLoopIssues registry (i + 1) rest

/-- `Executor._validate_execution_plan(plan)`.  The source starts from
`is_valid = True` and sets it to `False` whenever it appends an issue, so
validity is exactly "no issue was appended". -/
def validate_execution_plan (registry : List String) (p : PlanDoc) : ValidationResult :=
  let steps := p.plan.steps
  if steps.isEmpty then
    { is_valid := false
      issues := [⟨"empty_plan", "Plan contains no steps to execute", "high"⟩]
      warnings := [] }
  else
    let stepIss := stepLoopIssues registry 0 steps
    let circ := has_circular_dependency steps
    let circIss : List Issue :=
      if circ then [⟨"circular_dependency", "Circular dependency detected in plan", "critical"⟩]
      else []
    let warns : List Warning :=
      if 20 < steps.length then
        [⟨"complex_plan", s!"Plan has {steps.length} steps, may be complex to execute", "medium"⟩]
      else []
    { is_valid := stepIss.isEmpty && !circ
      issues := stepIss ++ circIss
      warnings := warns }

/-- `Executor._build_dependency_graph(steps)`: for each step, assign
`graph[step_id] = []` (overwriting any dependents recorded so far!), then
append `step_id` to `graph[dep_id]` for each dependency.  `step["id"]` is
read unconditionally; validated plans have ids, and the model uses `""`
for the (unreachable after validation) missing-id case. -/
def build_dependency_graph (steps : List Step) : List (String × List String) :=
  steps.foldl
    (fun g s =>
      let sid := s.id.getD ""
      let g := dset sid [] g
      s.dependencies.foldl (fun g dep => dappend dep sid g) g)
    []

/-- The `while queue:` loop of `Executor._topological_sort`.  Note the
decrement block iterates over `graph.items()` and decrements the in-degree
of every node `k` whose dependents list contains the popped node — i.e. of
the popped node's prerequisites, not its dependents.  In-degrees can
therefore go negative, which is why they are `Int`.  `fuel` bounds the
number of pops; each node is enqueued at most twice, so
`2 * |all_steps| + 1` fuel is exact. -/
def kahnLoop (graph : List (String × List String)) :
    Nat → List String → List (String × Int) → List String → List String
  | 0, _, _, result => result
  | _ + 1, [], _, result => result
  | fuel + 1, node :: qrest, indeg, result =>
    let step := graph.foldl
      (fun (acc : List (String × Int) × List String) kv =>
        if node ∈ kv.2 then
          let v := ((dget acc.1 kv.1).getD 0) - 1
          (dset kv.1 v acc.1, if v = 0 then acc.2 ++ [kv.1] else acc.2)
        else acc)
      (indeg, [])
    kahnLoop graph fuel (qrest ++ step.2) step.1 (result ++ [node])

/-- `Executor._topological_sort(graph)`.  Set iteration order is modelled
as first-insertion order (keys first, then dependents in encountered
order); every use below is independent of this order. -/
def topological_sort (graph : List (String × List String)) : List String :=
  let all_steps := dedupFirst (graph.map (fun kv => kv.1) ++ (graph.map (fun kv => kv.2)).flatten)
  let indeg0 : List (String × Int) := all_steps.map (fun s => (s, 0))
  let indeg := graph.foldl
    (fun ind kv => kv.2.foldl (fun ind d => dset d ((dget ind d).getD 0 + 1) ind) ind)
    indeg0
  let queue := all_steps.filter (fun s => (dget indeg s).getD 0 = 0)
  let result := kahnLoop graph (2 * all_steps.length + 1) queue indeg []
  if result.length ≠ all_steps.length then graph.map (fun kv => kv.1) else result

/-- One recorded step result (`_execute_step` return shape, reduced to the
fields the claims mention). -/
structure StepResult where
  step_id : String
  status : String
  error : Option String

/-- Return value of `Executor.execute_plan` (the fields the claims are
about; `validation_errors` is `[]` on the paths that do not set it). -/
structure ExecResult where
  status : String
  results : List StepResult
  validation_errors : List Issue

/-- `Executor.execute_plan(plan)`.  Control flow of the source:
empty `steps` returns `{"status": "completed", "results": []}` *before*
validation runs (lines 30–36); a failed validation returns
`validation_failed` (lines 42–54); otherwise the source computes
`execution_order = self._topological_sort(...)` — a list of step-id
*strings* (despite the `List[Dict]` annotation) — and immediately
evaluates `[step['id'] for step in execution_order]` in a log call
(line 64), which raises `TypeError` (subscripting a `str` with `'id'`;
the order is never empty here since `steps` is non-empty).  The outer
`except` (lines 139–154) turns that into `{"status": "error", ...,
"results": []}`, so no step is ever executed on this path. -/
def execute_plan (registry : List String) (p : PlanDoc) : ExecResult :=
  let steps := p.plan.steps
  if steps.isEmpty then
    { status := "completed", results := [], validation_errors := [] }
  else
    let v := validate_execution_plan registry p
    if !v.is_valid then
      { status := "validation_failed", results := [], validation_errors := v.issues }
    else
      { status := "error", results := [], validation_errors := [] }

/-- The metrics dict consumed by `_calculate_quality_score`. -/
structure QualityMetrics where
  steps_completed : Nat
  steps_failed : Nat
  total_execution_time : ℚ

/-- `Executor._calculate_quality_score(quality_metrics)`. -/
def calculate_quality_score (m : QualityMetrics) : ℚ :=
  let total : ℚ := (m.steps_completed : ℚ) + (m.steps_failed : ℚ)
  if total = 0 then 0
  else
    let success_rate := (m.steps_completed : ℚ) / total
    let base_score := success_rate * 8
    let avg_time := m.total_execution_time / total
    let time_bonus : ℚ :=
      if avg_time < 1 then 2
      else if avg_time < 5 then 1
      else if avg_time < 10 then 1 / 2
      else 0
    min 10 (base_score + time_bonus)

/-- Python `s.startswith(pre)`: character-based prefix test (Python
strings index by characters, like `String.take`). -/
def pyStartswith (s pre : String) : Bool :=
  s.take pre.length == pre

/-- Python `s.endswith(post)`: character-based suffix test. -/
def pyEndswith (s post : String) : Bool :=
  s.takeRight post.length == post

/-- The per-value branch of `Executor._resolve_parameter_dependencies`:
a string value that starts with `{{` and ends with `}}` is a dependency
reference; the id is `value[2:-2]`; a reference whose step has a recorded
output is replaced by that output, otherwise the literal string is kept;
every other value is passed through. -/
def resolveValue (previous_outputs : List (String × Val)) : Val → Val
  | .vstr s =>
    if pyStartswith s "\x7b\x7b" && pyEndswith s "\x7d\x7d" then
      let step_id := (s.drop 2).dropRight 2
      match dget previous_outputs step_id with
      | some out => out
      | none => .vstr s
    else .vstr s
  | v => v

/-- `Executor._resolve_parameter_dependencies(parameters, previous_outputs)`. -/
def resolve_parameter_dependencies (parameters : List (String × Val))
    (previous_outputs : List (String × Val)) : List (String × Val) :=
  parameters.map (fun kv => (kv.1, resolveValue previous_outputs kv.2))

/-- `Critic._estimate_plan_quality(plan)`.  The duplicate-id penalty
compares `len(step_ids)` with `len(set(step_ids))` over the *optional* ids
(`step.get("id")`), so two id-less steps also count as duplicates. -/
def estimate_plan_quality (p : PlanDoc) : ℚ :=
  let steps := p.plan.steps
  if steps.isEmpty then 3
  else
    let q : ℚ := 5
    let q := if truthyStr p.plan.description then q + 1 else q
    let q := if steps.all (fun s => truthyStr s.id && truthyStr s.type) then q + 1 else q
    let step_ids := steps.map (fun s => s.id)
    let q := if step_ids.Nodup then q else q - 2
    let q := if p.memory_update_action = some "save" then q + 1 / 2 else q
    max 1 (min 10 q)

/-- A critique result as the planner reads it: the fields the
self-correction loop and the claims consume.  `overall_score` is `none`
when the model's JSON lacks the key (`critique_result.get("overall_score", 0)`
then reads 0); `improved_plan` is `none` when absent or `None`.  The plan
representation is a type parameter: the loop treats plans opaquely except
for (dis)equality, exactly as the Python `!=` on plan dicts. -/
structure Critique (P : Type) where
  overall_score : Option ℚ
  is_plan_valid : Bool
  improved_plan : Option P
  critique_error : Bool

/-- `Critic._fallback_critique(plan, user_query)` (the claim-relevant
fields; the source also fills fixed issue/suggestion lists). -/
def fallback_critique {P : Type} (plan : P) : Critique P :=
  { overall_score := some 7
    is_plan_valid := true
    improved_plan := some plan
    critique_error := true }

/-- `Critic.critique_plan(...)` abstracted over the model call: the model
response's strict-JSON parse either succeeds with a critique or fails
(`none` = `json.JSONDecodeError`); on failure the fallback critique is
returned — the `except` clauses mean no parse error escapes. -/
def critique_plan {P : Type} (parsed : Option (Critique P)) (plan : P) : Critique P :=
  match parsed with
  | some c => c
  | none => fallback_critique plan

/-- One round of the `while iteration < self.max_critique_iterations` loop
of `Planner._apply_self_correction`, recursing on the remaining iteration
budget.  Returns the final plan and the final value of `iteration`.
`critic` maps the current plan to the critique result of that iteration. -/
def correctionLoop {P : Type} [DecidableEq P] (critic : P → Critique P) (threshold : ℚ) :
    Nat → P → Nat → P × Nat
  | 0, cur, iteration => (cur, iteration)
  | budget + 1, cur, iteration =>
    let iteration := iteration + 1
    let c := critic cur
    if threshold ≤ (c.overall_score.getD 0) then (cur, iteration)
    else
      match c.improved_plan with
      | some improved =>
        if improved ≠ cur then correctionLoop critic threshold budget improved iteration
        else (cur, iteration)
      | none => (cur, iteration)

/-- `Planner._apply_self_correction` (loop and attached meta_data):
returns the current plan and `critique_iterations` (the iteration counter
at loop exit).  Defaults from `Planner.__init__`:
`max_critique_iterations = 2`, `critique_threshold = 7.0`. -/
def apply_self_correction {P : Type} [DecidableEq P] (critic : P → Critique P)
    (max_critique_iterations : Nat) (critique_threshold : ℚ) (plan : P) : P × Nat :=
  correctionLoop critic critique_threshold max_critique_iterations plan 0

/-- A sub-agent execution result (`agent.execute(task)` return dict),
reduced to the fields `execute_hierarchical_task` reads:
`result.get("execution_time", 0)` plus an opaque payload tag. -/
structure AgentResult where
  payload : String
  execution_time : ℚ
deriving DecidableEq

/-- A task as passed to `agent.execute`: the child task built by
`execute_hierarchical_task` is
`{"type": "subordinate_task", "parent_result": root_result, "data": task.get("data", {})}`. -/
structure Task where
  type : String
  parent_result : Option AgentResult
  data : String

/-- `HierarchicalToolManager` state: `self.agents` (id → agent behaviour,
an agent being a function from tasks to results) and
`self.tool_hierarchies` (name → `{root_agent, child_agents}`). -/
structure Hierarchy where
  root_agent : String
  child_agents : List String

structure ToolManager where
  agents : List (String × (Task → AgentResult))
  tool_hierarchies : List (String × Hierarchy)

/-- Return value of `execute_hierarchical_task`: either the success dict
`{hierarchy, root_result, child_results, execution_time}` or the error
dict `{"error": str(e), "hierarchy": hierarchy_name}` produced by the
`except` clause from the internally raised `ValueError`s. -/
inductive HierResult : Type where
  | ok : String → AgentResult → List AgentResult → ℚ → HierResult
  | err : String → String → HierResult
deriving DecidableEq

/-- `HierarchicalToolManager.execute_hierarchical_task(hierarchy_name, task)`.
Unknown hierarchy and missing *root* agent raise `ValueError`s that the
function's own `except` converts to an error dict; a missing *child* agent
is silently skipped (`if child_agent:`). -/
def execute_hierarchical_task (m : ToolManager) (hierarchy_name : String) (task : Task) :
    HierResult :=
  match dget m.tool_hierarchies hierarchy_name with
  | none => .err (s!"Tool hierarchy \x27{hierarchy_name}\x27 not found") hierarchy_name
  | some h =>
    match dget m.agents h.root_agent with
    | none => .err (s!"Root agent \x27{h.root_agent}\x27 not found") hierarchy_name
    | some root_agent =>
      let root_result := root_agent task
      let child_task : Task :=
        { type := "subordinate_task", parent_result := some root_result, data := task.data }
      let child_results := h.child_agents.filterMap
        (fun cid => (dget m.agents cid).map (fun a => a child_task))
      .ok hierarchy_name root_result child_results
        (root_result.execution_time + (child_results.map (fun r => r.execution_time)).sum)

/-! ### Characterizations of the validator -/

/-- Per-step validity: the step-structure loop of
`_validate_execution_plan` appends no issue for this step. -/
def stepOk (registry : List String) (s : Step) : Bool :=
  truthyStr s.id && truthyStr s.type &&
    (if s.type = some "TOOL_CALL" then truthyStr s.tool && get_tool_config registry s.tool
     else true)

theorem stepIssues_eq_nil_iff (registry : List String) (i : Nat) (s : Step) :
    stepIssues registry i s = [] ↔ stepOk registry s = true := by
  simp only [stepIssues, stepOk]
  by_cases h1 : truthyStr s.id <;> by_cases h2 : truthyStr s.type <;>
    by_cases h3 : s.type = some "TOOL_CALL" <;> by_cases h4 : truthyStr s.tool <;>
    by_cases h5 : get_tool_config registry s.tool <;> simp [h1, h2, h3, h4, h5]

theorem stepLoopIssues_eq_nil_iff (registry : List String) (steps : List Step) : ∀ i,
    stepLoopIssues registry i steps = [] ↔ ∀ s ∈ steps, stepOk registry s = true := by
  induction steps with
  | nil => intro i; simp [stepLoopIssues]
  | cons s rest ih =>
    intro i
    simp only [stepLoopIssues, List.append_eq_nil, List.mem_cons]
    rw [stepIssues_eq_nil_iff, ih (i + 1)]
    constructor
    · rintro ⟨hs, hrest⟩ x hx
      rcases hx with rfl | hx
      · exact hs
      · exact hrest x hx
    · intro h
      exact ⟨h s (Or.inl rfl), fun x hx => h x (Or.inr hx)⟩

theorem validate_is_valid_iff (registry : List String) (p : PlanDoc)
    (hne : p.plan.steps ≠ []) :
    (validate_execution_plan registry p).is_valid = true ↔
      ((∀ s ∈ p.plan.steps, stepOk registry s = true) ∧
        has_circular_dependency p.plan.steps = false) := by
  have hemp : p.plan.steps.isEmpty = false := by
    cases h : p.plan.steps with
    | nil => exact absurd h hne
    | cons x xs => rfl
  simp only [validate_execution_plan, hemp, Bool.false_eq_true, if_false, Bool.and_eq_true,
    Bool.not_eq_true', List.isEmpty_iff]
  rw [stepLoopIssues_eq_nil_iff]

theorem validate_issues_nil (registry : List String) (p : PlanDoc)
    (hne : p.plan.steps ≠ [])
    (hok : ∀ s ∈ p.plan.steps, stepOk registry s = true)
    (hnc : has_circular_dependency p.plan.steps = false) :
    (validate_execution_plan registry p).issues = [] := by
  have hemp : p.plan.steps.isEmpty = false := by
    cases h : p.plan.steps with
    | nil => exact absurd h hne
    | cons x xs => rfl
  simp only [validate_execution_plan, hemp, Bool.false_eq_true, if_false, hnc]
  rw [List.append_nil]
  exact (stepLoopIssues_eq_nil_iff registry p.plan.steps 0).mpr hok

theorem validate_circular_issue (registry : List String) (p : PlanDoc)
    (hne : p.plan.steps ≠ [])
    (hc : has_circular_dependency p.plan.steps = true) :
    (⟨"circular_dependency", "Circular dependency detected in plan", "critical"⟩ : Issue) ∈
      (validate_execution_plan registry p).issues := by
  have hemp : p.plan.steps.isEmpty = false := by
    cases h : p.plan.steps with
    | nil => exact absurd h hne
    | cons x xs => rfl
  simp [validate_execution_plan, hemp, hc]

/-- A two-step mutual dependency (`A→[B]`, `B→[A]`) is always detected by
`_has_circular_dependency`, including the degenerate case `a = b` (where
the second dict assignment overwrites the first). -/
theorem two_cycle_detected (s1 s2 : Step) (a b : String)
    (h1 : s1.id = some a) (h2 : s1.dependencies = [b])
    (h3 : s2.id = some b) (h4 : s2.dependencies = [a]) :
    has_circular_dependency [s1, s2] = true := by
  by_cases hab : a = b
  · subst hab
    simp [has_circular_dependency, buildCycleGraph, buildCycleGraph.setKey, h1, h2, h3, h4,
      hasCycleOuter, hasCycleNode, cycleNeighbors]
  · simp [has_circular_dependency, buildCycleGraph, buildCycleGraph.setKey, h1, h2, h3, h4,
      hasCycleOuter, hasCycleNode, cycleNeighbors, hab, Ne.symm hab]

theorem cycleNeighbors_setKey (k q : Option String) (v : List String)
    (g : List (Option String × List String)) :
    cycleNeighbors (buildCycleGraph.setKey k v g) q =
      if k = q then v else cycleNeighbors g q := by
  induction g with
  | nil => by_cases h : k = q <;> simp [buildCycleGraph.setKey, cycleNeighbors, h]
  | cons kv rest ih =>
    obtain ⟨k', v'⟩ := kv
    by_cases h1 : k' = k
    · subst h1
      by_cases h2 : k' = q <;> simp [buildCycleGraph.setKey, cycleNeighbors, h2]
    · by_cases h2 : k' = q
      · subst h2
        have : ¬ k = k' := fun h => h1 h.symm
        simp [buildCycleGraph.setKey, cycleNeighbors, h1, this]
      · simp [buildCycleGraph.setKey, cycleNeighbors, h1, h2, ih]

/-- An id that is not the id of any step never becomes a key of the cycle
graph, so `graph.get(node, [])` gives it no outgoing edges. -/
theorem cycleNeighbors_dangling (steps : List Step) (d : String)
    (hd : ∀ s ∈ steps, s.id ≠ some d) :
    cycleNeighbors (buildCycleGraph steps) (some d) = [] := by
  suffices h : ∀ g, cycleNeighbors g (some d) = [] →
      cycleNeighbors (steps.foldl (fun g s => buildCycleGraph.setKey s.id s.dependencies g) g)
        (some d) = [] by
    exact h [] rfl
  induction steps with
  | nil => intro g hg; simpa using hg
  | cons s rest ih =>
    intro g hg
    simp only [List.foldl_cons]
    refine ih (fun x hx => hd x (List.mem_cons_of_mem s hx)) _ ?_
    rw [cycleNeighbors_setKey]
    have : s.id ≠ some d := hd s (List.mem_cons_self s rest)
    simp [this, hg]

/-! ### Self-correction loop lemmas -/

theorem correctionLoop_iterations_le {P : Type} [DecidableEq P]
    (critic : P → Critique P) (thr : ℚ) :
    ∀ (budget : Nat) (cur : P) (it : Nat),
      (correctionLoop critic thr budget cur it).2 ≤ it + budget := by
  intro budget
  induction budget with
  | zero => intro cur it; simp [correctionLoop]
  | succ n ih =>
    intro cur it
    simp only [correctionLoop]
    by_cases hs : thr ≤ ((critic cur).overall_score.getD 0)
    · rw [if_pos hs]; omega
    · rw [if_neg hs]
      cases himp : (critic cur).improved_plan with
      | none =>
        show ((cur, it + 1) : P × Nat).2 ≤ it + (n + 1)
        omega
      | some improved =>
        show (if improved ≠ cur then correctionLoop critic thr n improved (it + 1)
          else (cur, it + 1)).2 ≤ it + (n + 1)
        by_cases hne : improved ≠ cur
        · rw [if_pos hne]
          have := ih improved (it + 1)
          omega
        · rw [if_neg hne]; omega

theorem correctionLoop_always_improving {P : Type} [DecidableEq P]
    (critic : P → Critique P) (thr : ℚ)
    (H : ∀ q, (critic q).overall_score.getD 0 < thr ∧
      ∃ r, (critic q).improved_plan = some r ∧ r ≠ q) :
    ∀ (budget : Nat) (cur : P) (it : Nat),
      (correctionLoop critic thr budget cur it).2 = it + budget := by
  intro budget
  induction budget with
  | zero => intro cur it; simp [correctionLoop]
  | succ n ih =>
    intro cur it
    obtain ⟨hscore, r, hr, hrne⟩ := H cur
    simp only [correctionLoop, hr]
    rw [if_neg (not_le.mpr hscore)]
    show (if r ≠ cur then correctionLoop critic thr n r (it + 1) else (cur, it + 1)).2 = it + (n + 1)
    rw [if_pos hrne, ih r (it + 1)]
    omega

theorem apply_self_correction_accepts_first {P : Type} [DecidableEq P]
    (critic : P → Critique P) (thr : ℚ) (n : Nat) (plan : P)
    (hs : thr ≤ (critic plan).overall_score.getD 0) :
    apply_self_correction critic (n + 1) thr plan = (plan, 1) := by
  simp [apply_self_correction, correctionLoop, hs]

theorem apply_self_correction_no_improvement {P : Type} [DecidableEq P]
    (critic : P → Critique P) (thr : ℚ) (n : Nat) (plan : P)
    (hs : (critic plan).overall_score.getD 0 < thr)
    (hni : (critic plan).improved_plan = none ∨ (critic plan).improved_plan = some plan) :
    apply_self_correction critic (n + 1) thr plan = (plan, 1) := by
  rcases hni with h | h <;>
    simp [apply_self_correction, correctionLoop, not_le.mpr hs, h]

/-! ### Spec-side formulas (from the claims, for refinement comparison) -/

/-- Modelled from the claim wording for the execution quality score:
`min(10, successRate*8 + timeBonus)` with `successRate =
completed/(completed+failed)`, the time-bonus step function of the average
per-step duration, and `0.0` when `completed+failed == 0`. -/
def quality_score_spec (completed failed : Nat) (total_time : ℚ) : ℚ :=
  if completed + failed = 0 then 0
  else
    let successRate : ℚ := (completed : ℚ) / ((completed + failed : Nat) : ℚ)
    let avg : ℚ := total_time / ((completed + failed : Nat) : ℚ)
    let timeBonus : ℚ := if avg < 1 then 2 else if avg < 5 then 1 else if avg < 10 then 1 / 2 else 0
    min 10 (successRate * 8 + timeBonus)

/-- Modelled from the claim wording for the plan-quality heuristic:
base 5.0, empty steps score 3.0, +1.0 for a non-empty description, +1.0
when every step has a non-empty id and type, −2.0 for duplicate step ids,
+0.5 for a requested memory save, clamped to [1, 10]. -/
def plan_quality_spec (p : PlanDoc) : ℚ :=
  if p.plan.steps.isEmpty then 3
  else
    max 1 (min 10
      (5 + (if truthyStr p.plan.description then 1 else 0)
         + (if p.plan.steps.all (fun s => truthyStr s.id && truthyStr s.type) then 1 else 0)
         - (if (p.plan.steps.map (fun s => s.id)).Nodup then 0 else 2)
         + (if p.memory_update_action = some "save" then 1 / 2 else 0)))

theorem estimate_plan_quality_eq_spec (p : PlanDoc) :
    estimate_plan_quality p = plan_quality_spec p := by
  by_cases he : p.plan.steps.isEmpty
  · have h : p.plan.steps = [] := List.isEmpty_iff.mp he
    simp [estimate_plan_quality, plan_quality_spec, he, h]
  · have h : ¬ p.plan.steps = [] := by
      intro hc
      exact he (by simp [hc])
    simp only [estimate_plan_quality, plan_quality_spec, he, h, Bool.false_eq_true, if_false]
    by_cases h1 : truthyStr p.plan.description <;>
      by_cases h2 : p.plan.steps.all (fun s => truthyStr s.id && truthyStr s.type) <;>
      by_cases h3 : (p.plan.steps.map (fun s => s.id)).Nodup <;>
      by_cases h4 : p.memory_update_action = some "save" <;>
      simp [h1, h2, h3, h4]

/-! ### Concrete fixtures used by counterexamples and witnesses -/

/-- A `DIRECT_ANSWER` step with the given id and dependency list. -/
def directStep (i : String) (deps : List String) : Step :=
  { id := some i, type := some "DIRECT_ANSWER", tool := none, description := "",
    parameters := [], dependencies := deps }

/-- The plan steps `A: deps []`, `B: deps [A, C]`, `C: deps []` — a DAG
(edge from C to B and from A to B). -/
def topoBugSteps : List Step :=
  [directStep "A" [], directStep "B" ["A", "C"], directStep "C" []]

/-- A well-formed two-step plan (registered tool `t`, then a direct
answer depending on it). -/
def crashPlan : PlanDoc :=
  { plan := { description := some "d",
              steps := [{ id := some "s1", type := some "TOOL_CALL", tool := some "t",
                          description := "", parameters := [], dependencies := [] },
                        { id := some "s2", type := some "DIRECT_ANSWER", tool := none,
                          description := "", parameters := [], dependencies := ["s1"] }] },
    memory_update_action := none }

/-- A plan document with an empty steps list. -/
def emptyStepsPlan : PlanDoc :=
  { plan := { description := none, steps := [] }, memory_update_action := none }

/-- A step missing both id and type (invalid). -/
def idlessStep : Step :=
  { id := none, type := none, tool := none, description := "", parameters := [],
    dependencies := [] }

/-- A hierarchy manager whose hierarchy `h` names root agent `r`
(registered, running in 1s) and child agent `c` (never registered). -/
def missingChildManager : ToolManager :=
  { agents := [("r", fun _ => { payload := "root", execution_time := 1 })],
    tool_hierarchies := [("h", { root_agent := "r", child_agents := ["c"] })] }

/-- A critic stub that always returns `overall_score = 0` and offers no
improved plan (plans represented by `Nat`). -/
def scoreZeroCritic : Nat → Critique Nat :=
  fun _ => { overall_score := some 0, is_plan_valid := true, improved_plan := none,
             critique_error := false }

/-- A critic stub that always returns `overall_score = 0` and always
offers a distinct improved plan. -/
def scoreZeroImprovingCritic : Nat → Critique Nat :=
  fun p => { overall_score := some 0, is_plan_valid := true, improved_plan := some (p + 1),
             critique_error := false }

/-- A critic stub that always returns `overall_score = 9` (above the
default threshold). -/
def scoreNineCritic : Nat → Critique Nat :=
  fun _ => { overall_score := some 9, is_plan_valid := true, improved_plan := none,
             critique_error := false }

/-! ### Claim C1 -/

/-- Claim C1, counterexample: a plan whose `steps` list is empty does
*not* fail validation with status `validation_failed`; `execute_plan`
short-circuits at its `if not steps:` check (executor.py lines 30–36)
and returns status `completed` before `_validate_execution_plan` runs. -/
theorem execute_plan_empty_steps_returns_completed :
    execute_plan [] emptyStepsPlan =
      { status := "completed", results := [], validation_errors := [] } ∧
    (execute_plan [] emptyStepsPlan).status ≠ "validation_failed" := by
  exact ⟨rfl, by decide⟩

/-- Claim C1 (amended): executor validation fails fast with status
`validation_failed` and executes no step (empty `results`) whenever any
step lacks an id or a type, a `TOOL_CALL` step lacks a tool name or names
an unregistered tool, or the dependency edges contain a cycle; a plan
with an *empty* steps list is instead short-circuited to status
`completed` with no step executed and no validation performed; and for
every plan with two steps A depending on [B] and B depending on [A],
validation reports `is_valid = false` with an issue of type
`circular_dependency`. -/
theorem executor_validation_fail_fast :
    (∀ (registry : List String) (p : PlanDoc),
      p.plan.steps ≠ [] →
      ((∃ s ∈ p.plan.steps, stepOk registry s = false) ∨
        has_circular_dependency p.plan.steps = true) →
      (execute_plan registry p).status = "validation_failed" ∧
        (execute_plan registry p).results = []) ∧
    (∀ (registry : List String) (p : PlanDoc),
      p.plan.steps = [] →
      execute_plan registry p =
        { status := "completed", results := [], validation_errors := [] }) ∧
    (∀ (registry : List String) (s1 s2 : Step) (a b : String)
        (dsc mua : Option String),
      s1.id = some a → s1.dependencies = [b] → s2.id = some b → s2.dependencies = [a] →
      (validate_execution_plan registry ⟨⟨dsc, [s1, s2]⟩, mua⟩).is_valid = false ∧
        (⟨"circular_dependency", "Circular dependency detected in plan", "critical"⟩ : Issue) ∈
          (validate_execution_plan registry ⟨⟨dsc, [s1, s2]⟩, mua⟩).issues) := by
  refine ⟨?_, ?_, ?_⟩
  · intro registry p hne hbad
    have hemp : p.plan.steps.isEmpty = false := by
      cases h : p.plan.steps with
      | nil => exact absurd h hne
      | cons x xs => rfl
    have hval : (validate_execution_plan registry p).is_valid = false := by
      apply Bool.eq_false_iff.mpr
      intro htrue
      rw [validate_is_valid_iff registry p hne] at htrue
      obtain ⟨hok, hnc⟩ := htrue
      rcases hbad with ⟨s, hs, hbadok⟩ | hcirc
      · rw [hok s hs] at hbadok
        simp at hbadok
      · rw [hnc] at hcirc
        exact Bool.false_ne_true hcirc
    constructor <;> simp [execute_plan, hemp, hval]
  · intro registry p hnil
    have hemp : p.plan.steps.isEmpty = true := by simp [hnil]
    simp [execute_plan, hemp]
  · intro registry s1 s2 a b dsc mua h1 h2 h3 h4
    have hcirc := two_cycle_detected s1 s2 a b h1 h2 h3 h4
    have hne : ([s1, s2] : List Step) ≠ [] := by simp
    constructor
    · apply Bool.eq_false_iff.mpr
      intro htrue
      have := (validate_is_valid_iff registry ⟨⟨dsc, [s1, s2]⟩, mua⟩ hne).mp htrue
      rw [this.2] at hcirc
      exact Bool.false_ne_true hcirc
    · exact validate_circular_issue registry ⟨⟨dsc, [s1, s2]⟩, mua⟩ hne hcirc

/-- Claim C1, witness: the amended theorem applied at concrete inputs — a
one-step plan whose step lacks an id fails validation, an empty plan
completes, and the concrete A↔B cycle is reported. -/
theorem executor_validation_fail_fast_witness :
    ((execute_plan [] ⟨⟨none, [idlessStep]⟩, none⟩).status = "validation_failed" ∧
      (execute_plan [] ⟨⟨none, [idlessStep]⟩, none⟩).results = []) ∧
    execute_plan [] emptyStepsPlan =
      { status := "completed", results := [], validation_errors := [] } ∧
    ((validate_execution_plan [] ⟨⟨none, [directStep "A" ["B"], directStep "B" ["A"]]⟩, none⟩).is_valid
        = false ∧
      (⟨"circular_dependency", "Circular dependency detected in plan", "critical"⟩ : Issue) ∈
        (validate_execution_plan [] ⟨⟨none, [directStep "A" ["B"], directStep "B" ["A"]]⟩, none⟩).issues) :=
  ⟨executor_validation_fail_fast.1 [] _ (by simp)
      (Or.inl ⟨idlessStep, List.mem_singleton_self _, rfl⟩),
    executor_validation_fail_fast.2.1 [] emptyStepsPlan rfl,
    executor_validation_fail_fast.2.2 [] _ _ "A" "B" none none rfl rfl rfl rfl⟩

/-! ### Claim C2 -/

/-- Claim C2: refuted on the code.  For the DAG plan `A: []`,
`B: [A, C]`, `C: []` the executor's topological sort returns
`["A", "B", "C"]`, in which step B precedes its declared dependency C —
`_build_dependency_graph` overwrites already-recorded dependents with
`graph[step_id] = []`, the Kahn loop decrements the in-degrees of a
popped node's *prerequisites* instead of its dependents (so it never
drains any graph that has an edge), and the resulting length mismatch
takes the "cycle" fallback `list(graph.keys())`, which ignores
dependency order. -/
theorem topological_sort_breaks_dependency_order :
    has_circular_dependency topoBugSteps = false ∧
    topological_sort (build_dependency_graph topoBugSteps) = ["A", "B", "C"] ∧
    ¬ (∀ s ∈ topoBugSteps, ∀ d ∈ s.dependencies,
        d ∈ (topological_sort (build_dependency_graph topoBugSteps)).takeWhile
          (fun x => x ≠ s.id.getD "")) := by
  refine ⟨rfl, rfl, ?_⟩
  intro h
  have hb := h (directStep "B" ["A", "C"])
    (List.mem_cons_of_mem _ (List.mem_cons_self _ _)) "C"
    (List.mem_cons_of_mem _ (List.mem_cons_self _ _))
  revert hb
  decide

/-! ### Claim C4 -/

/-- Claim C4: refuted on the code.  `crashPlan` passes validation, yet
`execute_plan` returns the plan-level `{"status": "error", "results":
[]}`: `_topological_sort` returns id strings and line 64's
`step['id']` subscript raises `TypeError` before the step loop starts,
so no step executes, no per-step error is recorded, and the second step
is never reached. -/
theorem execute_plan_never_executes_steps :
    (validate_execution_plan ["t"] crashPlan).is_valid = true ∧
    execute_plan ["t"] crashPlan =
      { status := "error", results := [], validation_errors := [] } ∧
    (execute_plan ["t"] crashPlan).results = [] := by
  exact ⟨rfl, rfl, rfl⟩

/-! ### Claim C10 -/

/-- Claim C10: `_validate_execution_plan` never checks that dependency
ids refer to existing steps: any plan that passes the per-step checks and
the cycle check is declared valid with no issues, even when some step's
dependency list names an id that is no step's id; and the cycle-detection
graph gives such a dangling id no outgoing edges (`graph.get(node, [])`).
-/
theorem validation_ignores_dangling_dependencies :
    ∀ (registry : List String) (p : PlanDoc) (d : String),
      p.plan.steps ≠ [] →
      (∀ s ∈ p.plan.steps, stepOk registry s = true) →
      has_circular_dependency p.plan.steps = false →
      (∃ s ∈ p.plan.steps, d ∈ s.dependencies) →
      (∀ s ∈ p.plan.steps, s.id ≠ some d) →
      (validate_execution_plan registry p).is_valid = true ∧
        (validate_execution_plan registry p).issues = [] ∧
        cycleNeighbors (buildCycleGraph p.plan.steps) (some d) = [] := by
  intro registry p d hne hok hnc _hdangling hid
  exact ⟨(validate_is_valid_iff registry p hne).mpr ⟨hok, hnc⟩,
    validate_issues_nil registry p hne hok hnc,
    cycleNeighbors_dangling p.plan.steps d hid⟩

/-- Claim C10, witness: a one-step plan whose only step depends on the
nonexistent id `X` validates cleanly. -/
theorem validation_ignores_dangling_dependencies_witness :
    (validate_execution_plan [] ⟨⟨none, [directStep "A" ["X"]]⟩, none⟩).is_valid = true ∧
    (validate_execution_plan [] ⟨⟨none, [directStep "A" ["X"]]⟩, none⟩).issues = [] ∧
    cycleNeighbors (buildCycleGraph [directStep "A" ["X"]]) (some "X") = [] :=
  validation_ignores_dangling_dependencies [] ⟨⟨none, [directStep "A" ["X"]]⟩, none⟩ "X"
    (by simp) (by decide) rfl
    ⟨directStep "A" ["X"], List.mem_singleton_self _, by decide⟩ (by decide)

/-! ### Claim C3 -/

/-- Claim C3: parameter resolution replaces every string value of the
exact placeholder form (the code's check: starts with `{{` and ends with
`}}`, id = `value[2:-2]`) by the recorded output object of that step,
leaves the literal placeholder string when the step has no recorded
output, passes every other value through per key, and on the concrete
round-trip `{"x": "{{s1}}"}` with recorded output `{"v": 42}` for `s1`
yields `{"x": {"v": 42}}`. -/
theorem resolve_parameter_dependencies_spec :
    (∀ (prev : List (String × Val)) (s : String) (out : Val),
      pyStartswith s "\x7b\x7b" = true → pyEndswith s "\x7d\x7d" = true →
      dget prev ((s.drop 2).dropRight 2) = some out →
      resolveValue prev (.vstr s) = out) ∧
    (∀ (prev : List (String × Val)) (s : String),
      pyStartswith s "\x7b\x7b" = true → pyEndswith s "\x7d\x7d" = true →
      dget prev ((s.drop 2).dropRight 2) = none →
      resolveValue prev (.vstr s) = .vstr s) ∧
    (∀ (params prev : List (String × Val)),
      resolve_parameter_dependencies params prev =
        params.map (fun kv => (kv.1, resolveValue prev kv.2))) ∧
    resolve_parameter_dependencies [("x", .vstr "\x7b\x7bs1\x7d\x7d")]
        [("s1", .vobj [("v", .vint 42)])] =
      [("x", .vobj [("v", .vint 42)])] := by
  refine ⟨?_, ?_, fun _ _ => rfl, rfl⟩
  · intro prev s out h1 h2 h3
    simp [resolveValue, h1, h2, h3]
  · intro prev s h1 h2 h3
    simp [resolveValue, h1, h2, h3]

/-- Claim C3, witness: the replacement and keep-literal cases applied at
the concrete placeholder `{{s1}}`. -/
theorem resolve_parameter_dependencies_spec_witness :
    resolveValue [("s1", .vobj [("v", .vint 42)])] (.vstr "\x7b\x7bs1\x7d\x7d") =
      .vobj [("v", .vint 42)] ∧
    resolveValue [] (.vstr "\x7b\x7bs1\x7d\x7d") = .vstr "\x7b\x7bs1\x7d\x7d" :=
  ⟨resolve_parameter_dependencies_spec.1 [("s1", .vobj [("v", .vint 42)])]
      "\x7b\x7bs1\x7d\x7d" (.vobj [("v", .vint 42)]) (by decide) (by decide) rfl,
    resolve_parameter_dependencies_spec.2.1 [] "\x7b\x7bs1\x7d\x7d"
      (by decide) (by decide) rfl⟩

/-! ### Claim C5 -/

/-- Claim C5: `_calculate_quality_score` computes exactly
`min(10, successRate*8 + timeBonus)` with `successRate =
completed/(completed+failed)` and the `<1s/<5s/<10s` time-bonus step
function of the average per-step duration, returning 0 when
`completed + failed == 0`; in particular `completed=0, failed=0` scores
`0.0` and `completed=10, failed=0` with average step time `0.5s`
(total time 5s) scores exactly `10.0`. -/
theorem calculate_quality_score_spec :
    (∀ m : QualityMetrics,
      calculate_quality_score m =
        quality_score_spec m.steps_completed m.steps_failed m.total_execution_time) ∧
    calculate_quality_score ⟨0, 0, 0⟩ = 0 ∧
    calculate_quality_score ⟨10, 0, 5⟩ = 10 := by
  refine ⟨?_, by norm_num [calculate_quality_score], by norm_num [calculate_quality_score]⟩
  intro m
  obtain ⟨c, f, t⟩ := m
  by_cases h : c + f = 0
  · have h' : (c : ℚ) + (f : ℚ) = 0 := by exact_mod_cast congrArg (Nat.cast : Nat → ℚ) h
    simp [calculate_quality_score, quality_score_spec, h, h']
  · have h' : (c : ℚ) + (f : ℚ) ≠ 0 := by
      intro hc
      exact h (by exact_mod_cast hc)
    simp only [calculate_quality_score, quality_score_spec, h, h', if_false, Nat.cast_add]

/-! ### Claim C6 -/

/-- Claim C6, counterexample: with the default `maxIterations = 2` and
`threshold = 7.0`, a critic stub that always returns `overall_score = 0`
(and, offering nothing else, no improved plan) makes the loop stop after
exactly one iteration with `critique_iterations = 1`, not
`maxIterations = 2`: the `else` branch breaks as soon as no distinct
improved plan is supplied. -/
theorem self_correction_score_zero_single_iteration :
    apply_self_correction scoreZeroCritic 2 7 0 = (0, 1) ∧ (1 : Nat) ≠ 2 :=
  ⟨rfl, by decide⟩

/-- Claim C6 (amended): the self-correction loop performs at most
`maxIterations` critique iterations; with any remaining budget it stops
at the first iteration whose `overall_score` reaches the threshold,
keeping the current plan with `critique_iterations = 1`; it stops early
(after one iteration) when the critique offers no improved plan distinct
from the current one; a critic that always scores below threshold *and*
always offers a distinct improved plan drives the loop through exactly
`maxIterations` iterations; and the score-0, no-improvement stub
therefore stops after exactly one iteration. -/
theorem self_correction_loop_behaviour :
    (∀ (P : Type) [DecidableEq P] (critic : P → Critique P) (maxIter : Nat) (thr : ℚ)
        (plan : P),
      (apply_self_correction critic maxIter thr plan).2 ≤ maxIter) ∧
    (∀ (P : Type) [DecidableEq P] (critic : P → Critique P) (n : Nat) (thr : ℚ) (plan : P),
      thr ≤ (critic plan).overall_score.getD 0 →
      apply_self_correction critic (n + 1) thr plan = (plan, 1)) ∧
    (∀ (P : Type) [DecidableEq P] (critic : P → Critique P) (n : Nat) (thr : ℚ) (plan : P),
      (critic plan).overall_score.getD 0 < thr →
      ((critic plan).improved_plan = none ∨ (critic plan).improved_plan = some plan) →
      apply_self_correction critic (n + 1) thr plan = (plan, 1)) ∧
    (∀ (P : Type) [DecidableEq P] (critic : P → Critique P) (maxIter : Nat) (thr : ℚ)
        (plan : P),
      (∀ q, (critic q).overall_score.getD 0 < thr ∧
        ∃ r, (critic q).improved_plan = some r ∧ r ≠ q) →
      (apply_self_correction critic maxIter thr plan).2 = maxIter) ∧
    (∀ (plan : Nat) (n : Nat),
      apply_self_correction scoreZeroCritic (n + 1) 7 plan = (plan, 1)) := by
  refine ⟨?_, ?_, ?_, ?_, ?_⟩
  · intro P _ critic maxIter thr plan
    simpa using correctionLoop_iterations_le critic thr maxIter plan 0
  · intro P _ critic n thr plan hs
    exact apply_self_correction_accepts_first critic thr n plan hs
  · intro P _ critic n thr plan hs hni
    exact apply_self_correction_no_improvement critic thr n plan hs hni
  · intro P _ critic maxIter thr plan H
    simpa using correctionLoop_always_improving critic thr H maxIter plan 0
  · intro plan n
    refine apply_self_correction_no_improvement scoreZeroCritic 7 n plan ?_ (Or.inl rfl)
    norm_num [scoreZeroCritic]

/-- Claim C6, witness: concrete runs — the score-0 stub stops at
iteration 1, a stub always offering a distinct improvement uses both of
the default 2 iterations, and a high-scoring stub is accepted at once. -/
theorem self_correction_loop_behaviour_witness :
    apply_self_correction scoreZeroCritic 2 7 0 = (0, 1) ∧
    (apply_self_correction scoreZeroImprovingCritic 2 7 0).2 = 2 ∧
    apply_self_correction scoreNineCritic 2 7 0 = (0, 1) :=
  ⟨self_correction_loop_behaviour.2.2.2.2 0 1,
    self_correction_loop_behaviour.2.2.2.1 Nat scoreZeroImprovingCritic 2 7 0
      (fun q => ⟨by norm_num [scoreZeroImprovingCritic],
        q + 1, rfl, by omega⟩),
    self_correction_loop_behaviour.2.1 Nat scoreNineCritic 1 7 0 (by norm_num [scoreNineCritic])⟩

/-! ### Claim C7 -/

/-- Claim C7: when the critic's model response cannot be parsed as JSON,
`critique_plan` returns (it does not raise) the fallback critique with
`overall_score = 7.0`, `is_plan_valid = true`, `improved_plan` the
original plan unchanged, and `critique_error = true`. -/
theorem critique_plan_parse_failure_fallback :
    ∀ (P : Type) (plan : P),
      critique_plan none plan =
        { overall_score := some 7, is_plan_valid := true,
          improved_plan := some plan, critique_error := true } :=
  fun _ _ => rfl

/-! ### Claim C8 -/

/-- Claim C8: the deterministic plan-quality heuristic equals the claim's
formula — base 5.0, empty steps 3.0, +1.0 for a non-empty description,
+1.0 when every step has a non-empty id and type, −2.0 for duplicate
step ids, +0.5 for a requested memory save — and always lies in
[1, 10]; being a pure function of the plan, the same plan always yields
the same score. -/
theorem estimate_plan_quality_props :
    (∀ p : PlanDoc, estimate_plan_quality p = plan_quality_spec p) ∧
    (∀ p : PlanDoc, 1 ≤ estimate_plan_quality p ∧ estimate_plan_quality p ≤ 10) ∧
    (∀ p : PlanDoc, p.plan.steps = [] → estimate_plan_quality p = 3) := by
  refine ⟨estimate_plan_quality_eq_spec, ?_, ?_⟩
  · intro p
    rw [estimate_plan_quality_eq_spec]
    unfold plan_quality_spec
    by_cases he : p.plan.steps.isEmpty
    · simp [he]
      norm_num
    · simp only [he, Bool.false_eq_true, if_false]
      constructor
      · exact le_max_left _ _
      · exact max_le (by norm_num) (min_le_left _ _)
  · intro p h
    simp [estimate_plan_quality, h]

/-- Claim C8, witness: the empty-steps case at a concrete plan. -/
theorem estimate_plan_quality_props_witness :
    estimate_plan_quality emptyStepsPlan = 3 :=
  estimate_plan_quality_props.2.2 emptyStepsPlan rfl

/-! ### Claim C9 -/

/-- Claim C9, counterexample: hierarchy `h` references child agent `c`
that is not registered, yet `execute_hierarchical_task` does not fail
with any error — the `if child_agent:` guard silently skips the missing
child and the call succeeds with an empty `child_results` list and only
the root's execution time. -/
theorem execute_hierarchical_missing_child_no_error :
    execute_hierarchical_task missingChildManager "h" ⟨"t", none, "d"⟩ =
      .ok "h" ⟨"root", 1⟩ [] 1 ∧
    ∀ e hn, execute_hierarchical_task missingChildManager "h" ⟨"t", none, "d"⟩ ≠ .err e hn := by
  have key : execute_hierarchical_task missingChildManager "h" ⟨"t", none, "d"⟩ =
      .ok "h" ⟨"root", 1⟩ [] 1 := by
    simp only [execute_hierarchical_task, missingChildManager, dget]
    simp [show ("r" : String) ≠ "c" by decide]
  refine ⟨key, fun e hn h => ?_⟩
  rw [key] at h
  exact HierResult.noConfusion h

/-- Claim C9 (amended): for a registered hierarchy whose root agent is
registered, `execute_hierarchical_task` runs the root agent on the task,
then runs every *registered* listed child agent on the derived
subordinate task `{type: "subordinate_task", parent_result: root result,
data: task.data}` (silently skipping unregistered children), and reports
`execution_time` equal to the root's time plus the executed children's
times; an unknown hierarchy name or an unregistered root agent yields
the error dict `{"error": ..., "hierarchy": name}` (a `ValueError`
raised and caught inside the method), not a raised typed exception. -/
theorem execute_hierarchical_task_behaviour :
    (∀ (m : ToolManager) (name : String) (task : Task) (h : Hierarchy)
        (root : Task → AgentResult),
      dget m.tool_hierarchies name = some h →
      dget m.agents h.root_agent = some root →
      execute_hierarchical_task m name task =
        .ok name (root task)
          (h.child_agents.filterMap
            (fun cid => (dget m.agents cid).map
              (fun a => a ⟨"subordinate_task", some (root task), task.data⟩)))
          ((root task).execution_time +
            ((h.child_agents.filterMap
              (fun cid => (dget m.agents cid).map
                (fun a => a ⟨"subordinate_task", some (root task), task.data⟩))).map
              (fun r => r.execution_time)).sum)) ∧
    (∀ (m : ToolManager) (name : String) (task : Task),
      dget m.tool_hierarchies name = none →
      execute_hierarchical_task m name task =
        .err (s!"Tool hierarchy \x27{name}\x27 not found") name) ∧
    (∀ (m : ToolManager) (name : String) (task : Task) (h : Hierarchy),
      dget m.tool_hierarchies name = some h →
      dget m.agents h.root_agent = none →
      execute_hierarchical_task m name task =
        .err (s!"Root agent \x27{h.root_agent}\x27 not found") name) := by
  refine ⟨?_, ?_, ?_⟩
  · intro m name task h root hh hr
    simp [execute_hierarchical_task, hh, hr]
  · intro m name task hh
    simp [execute_hierarchical_task, hh]
  · intro m name task h hh hr
    simp [execute_hierarchical_task, hh, hr]

/-- Claim C9, witness: the success case on the concrete manager with a
missing child, and the two error cases on hierarchies with an unknown
name or an unregistered root. -/
theorem execute_hierarchical_task_behaviour_witness :
    execute_hierarchical_task missingChildManager "h" ⟨"t", none, "d"⟩ =
      .ok "h" ⟨"root", 1⟩ [] 1 ∧
    execute_hierarchical_task missingChildManager "nope" ⟨"t", none, "d"⟩ =
      .err "Tool hierarchy \x27nope\x27 not found" "nope" ∧
    execute_hierarchical_task
        { agents := [], tool_hierarchies := [("g", { root_agent := "r", child_agents := [] })] }
        "g" ⟨"t", none, "d"⟩ =
      .err "Root agent \x27r\x27 not found" "g" := by
  refine ⟨?_, ?_, ?_⟩
  · have h := execute_hierarchical_task_behaviour.1 missingChildManager "h" ⟨"t", none, "d"⟩
      { root_agent := "r", child_agents := ["c"] }
      (fun _ => { payload := "root", execution_time := 1 }) rfl rfl
    rw [h]
    simp only [dget, missingChildManager]
    simp [show ("r" : String) ≠ "c" by decide]
  · exact execute_hierarchical_task_behaviour.2.1 missingChildManager "nope" ⟨"t", none, "d"⟩ rfl
  · exact execute_hierarchical_task_behaviour.2.2
      { agents := [], tool_hierarchies := [("g", { root_agent := "r", child_agents := [] })] }
      "g" ⟨"t", none, "d"⟩ { root_agent := "r", child_agents := [] } rfl rfl

end AiKernel
